import Mathlib

/-!
Shallow embedding of the outfit layer history / state-reconciliation engine of the
virtual try-on application (src/App.tsx, src/wardrobe.ts, src/components/WardrobeModal).

Pose-image maps are JavaScript objects that the pose-change handler mutates in place
while other handlers replace whole layer objects; to keep that aliasing faithful, the
embedding stores pose-image maps in an explicit heap (`AppState.heap`) and an
`OutfitLayer` holds a reference (heap index) to its map.  Gateway calls
(`generateVirtualTryOnImage`, `generatePoseVariation`, `generateColorVariation`,
`generateAccessoryTryOnImage`) are external; each handler takes the call's outcome as
an `Except String String` argument (error message or produced image URL).
-/

namespace TryOn

/-- A wardrobe item (src/types via src/wardrobe.ts): id, display name, source URL and
kind (the string "garment" or "accessory"). -/
structure WardrobeItem where
  id : String
  name : String
  url : String
  type : String
deriving DecidableEq, Repr

/-- A pose-image map: a JavaScript object from pose-instruction string to image URL,
kept as an insertion-ordered association list. -/
abbrev PoseMap := List (String × String)

/-- JavaScript property read `m[k]`. -/
def PoseMap.getVal (m : PoseMap) (k : String) : Option String :=
  (m.find? (fun p => p.1 == k)).map (fun p => p.2)

/-- JavaScript property write `m[k] = v`: updates the value in place if the key is
present (keeping its position), otherwise appends the new entry at the end. -/
def PoseMap.setVal (m : PoseMap) (k : String) (v : String) : PoseMap :=
  if m.any (fun p => p.1 == k) then m.map (fun p => if p.1 == k then (k, v) else p)
  else m ++ [(k, v)]

/-- `Object.values(m)[0]`: the first-inserted value, if any. -/
def PoseMap.firstVal (m : PoseMap) : Option String :=
  m.head?.map (fun p => p.2)

/-- `Object.keys(m)`. -/
def PoseMap.keysOf (m : PoseMap) : List String :=
  m.map (fun p => p.1)

/-- The heap of pose-image map objects; an `OutfitLayer.poseImages` field is an index
into this list. -/
abbrev Heap := List PoseMap

/-- One step of the dressing history (src/types): the item applied at this step
(`none` for the base layer) and a reference to its pose-image map object. -/
structure OutfitLayer where
  item : Option WardrobeItem
  poseImages : Nat
deriving DecidableEq, Repr

/-- A saved outfit snapshot (src/types): note that `layers` holds the layer values,
whose `poseImages` fields still reference heap cells shared with the live history. -/
structure SavedOutfit where
  id : String
  name : String
  previewImageUrl : String
  modelImageUrl : String
  layers : List OutfitLayer
deriving DecidableEq, Repr

/-- The React state of the `App` component (src/App.tsx lines 58-72) restricted to the
session-relevant fields, plus the pose-map heap. -/
structure AppState where
  modelImageUrl : Option String
  outfitHistory : List OutfitLayer
  currentOutfitIndex : Nat
  isLoading : Bool
  loadingMessage : String
  error : Option String
  currentPoseIndex : Nat
  wardrobe : List WardrobeItem
  accessories : List WardrobeItem
  savedOutfits : List SavedOutfit
  selectedLayerIndexForRecolor : Option Nat
  isColorPickerOpen : Bool
  heap : Heap
deriving DecidableEq, Repr

/-- The fixed pose catalog (src/App.tsx lines 23-30). -/
def POSE_INSTRUCTIONS : List String := [
  "Full frontal view, hands on hips",
  "Slightly turned, 3/4 view",
  "Side profile view",
  "Jumping in the air, mid-action shot",
  "Walking towards camera",
  "Leaning against a wall"
]

/-- `POSE_INSTRUCTIONS[i]` used as an object key: a JavaScript out-of-range read gives
`undefined`, which as a property key stringifies to "undefined". -/
def poseKeyAt (i : Nat) : String :=
  POSE_INSTRUCTIONS.getD i "undefined"

/-- The default garments (src/wardrobe.ts). -/
def defaultWardrobe : List WardrobeItem := [
  { id := "gemini-sweat", name := "Gemini Sweat",
    url := "https://cdn.jsdelivr.net/gh/ammaarreshi/app-images@main/gemini-sweat-2.png",
    type := "garment" },
  { id := "gemini-tee", name := "Gemini Tee",
    url := "https://cdn.jsdelivr.net/gh/ammaarreshi/app-images@main/Gemini-tee.png",
    type := "garment" }
]

/-- The default accessories (src/wardrobe.ts). -/
def defaultAccessories : List WardrobeItem := [
  { id := "gold-necklace", name := "Gold Necklace",
    url := "https://cdn.jsdelivr.net/gh/ammaarreshi/app-images@main/accessories/gold-necklace.png",
    type := "accessory" },
  { id := "sun-hat", name := "Sun Hat",
    url := "https://cdn.jsdelivr.net/gh/ammaarreshi/app-images@main/accessories/sun-hat.png",
    type := "accessory" },
  { id := "aviator-sunglasses", name := "Aviators",
    url := "https://cdn.jsdelivr.net/gh/ammaarreshi/app-images@main/accessories/aviator-sunglasses.png",
    type := "accessory" }
]

/-- Modelled from the spec: `getFriendlyErrorMessage` lives in src/lib/utils.ts, which
is not among the provided sources; the spec only requires that a Gateway failure is
translated to a human-readable message.  Modelled as the fallback text joined with the
raw error; no claim depends on the message's exact value. -/
def getFriendlyErrorMessage (err : String) (fallback : String) : String :=
  fallback ++ ": " ++ err

/-- Dereference a layer's pose-image map in a heap (an invalid reference reads as the
empty map; all reachable references are valid). -/
def derefMap (heap : Heap) (l : OutfitLayer) : PoseMap :=
  heap.getD l.poseImages []

/-- `activeOutfitLayers` (src/App.tsx lines 85-88): the prefix of history through the
active position. -/
def activeOutfitLayers (st : AppState) : List OutfitLayer :=
  st.outfitHistory.take (st.currentOutfitIndex + 1)

/-- `activeItemIds` (src/App.tsx lines 90-93): ids of the active layers' items;
`.filter(Boolean)` also drops an empty-string id. -/
def activeItemIds (st : AppState) : List String :=
  (activeOutfitLayers st).filterMap (fun l =>
    match l.item with
    | some it => if it.id = "" then none else some it.id
    | none => none)

/-- `displayImageUrl` (src/App.tsx lines 95-104): the active layer's image for the
current pose, falling back to the layer's first-inserted image, else the model image. -/
def displayImageUrl (st : AppState) : Option String :=
  if st.outfitHistory = [] then st.modelImageUrl
  else
    match st.outfitHistory[st.currentOutfitIndex]? with
    | none => st.modelImageUrl
    | some currentLayer =>
      let m := derefMap st.heap currentLayer
      match m.getVal (poseKeyAt st.currentPoseIndex) with
      | some img => some img
      | none => m.firstVal

/-- `availablePoseKeys` (src/App.tsx lines 106-110). -/
def availablePoseKeys (st : AppState) : List String :=
  if st.outfitHistory = [] then []
  else
    match st.outfitHistory[st.currentOutfitIndex]? with
    | none => []
    | some currentLayer => (derefMap st.heap currentLayer).keysOf

/-- `handleModelFinalized` (src/App.tsx lines 112-119): install the base layer, whose
pose map holds the base image under the catalog's first instruction.  The pose map is
a fresh object (fresh heap cell). -/
def handleModelFinalized (st : AppState) (url : String) : AppState :=
  { st with
    modelImageUrl := some url,
    outfitHistory := [{ item := none, poseImages := st.heap.length }],
    currentOutfitIndex := 0,
    heap := st.heap ++ [[(poseKeyAt 0, url)]] }

/-- `handleStartOver` (src/App.tsx lines 121-132). -/
def handleStartOver (st : AppState) : AppState :=
  { st with
    modelImageUrl := none,
    outfitHistory := [],
    currentOutfitIndex := 0,
    isLoading := false,
    loadingMessage := "",
    error := none,
    currentPoseIndex := 0,
    wardrobe := defaultWardrobe,
    accessories := defaultAccessories }

/-- The cache check of `handleItemSelect` (src/App.tsx lines 138-139): the layer right
after the active position exists and its item's id equals the selected item's id. -/
def cacheHit (st : AppState) (itemInfo : WardrobeItem) : Bool :=
  match st.outfitHistory[st.currentOutfitIndex + 1]? with
  | some nextLayer =>
    match nextLayer.item with
    | some it => it.id == itemInfo.id
    | none => false
  | none => false

/-- Wardrobe registration (src/App.tsx lines 169-175): append the item unless an item
with the same id is already present. -/
def addIfAbsent (prev : List WardrobeItem) (itemInfo : WardrobeItem) : List WardrobeItem :=
  if prev.any (fun item => item.id == itemInfo.id) then prev else prev ++ [itemInfo]

/-- The generation path of `handleItemSelect` (src/App.tsx lines 145-182): on Gateway
success, build a fresh layer keyed at the current pose instruction, truncate history at
the active position, append the layer, advance the position, and register the item; on
failure, only the error message changes.  The busy flag is set for the duration of the
call and cleared in `finally` on both paths. -/
def itemSelectGenerate (st : AppState) (itemInfo : WardrobeItem)
    (gw : Except String String) : AppState :=
  match gw with
  | Except.ok newImageUrl =>
    { st with
      error := none,
      isLoading := false,
      loadingMessage := "",
      heap := st.heap ++ [[(poseKeyAt st.currentPoseIndex, newImageUrl)]],
      outfitHistory := st.outfitHistory.take (st.currentOutfitIndex + 1) ++
        [{ item := some itemInfo, poseImages := st.heap.length }],
      currentOutfitIndex := st.currentOutfitIndex + 1,
      wardrobe := if itemInfo.type = "garment"
        then addIfAbsent st.wardrobe itemInfo else st.wardrobe,
      accessories := if itemInfo.type = "garment"
        then st.accessories else addIfAbsent st.accessories itemInfo }
  | Except.error e =>
    { st with
      error := some (getFriendlyErrorMessage e ("Failed to apply " ++ itemInfo.type)),
      isLoading := false,
      loadingMessage := "" }

/-- `handleItemSelect` (src/App.tsx lines 134-183). -/
def handleItemSelect (st : AppState) (itemInfo : WardrobeItem)
    (gw : Except String String) : AppState :=
  if displayImageUrl st = none ∨ st.isLoading then st
  else if cacheHit st itemInfo then
    { st with
      currentOutfitIndex := st.currentOutfitIndex + 1,
      currentPoseIndex := 0 }
  else itemSelectGenerate st itemInfo gw

/-- `handleRemoveLastGarment` (src/App.tsx lines 185-190). -/
def handleRemoveLastGarment (st : AppState) : AppState :=
  if st.currentOutfitIndex > 0 then
    { st with
      currentOutfitIndex := st.currentOutfitIndex - 1,
      currentPoseIndex := 0 }
  else st

/-- The state of `handlePoseSelect` at its suspension point, after the optimistic
update and before the Gateway call resolves (src/App.tsx lines 209-215). -/
def posePending (st : AppState) (newIndex : Nat) : AppState :=
  { st with
    error := none,
    isLoading := true,
    loadingMessage := "Changing pose...",
    currentPoseIndex := newIndex }

/-- Resolution of the pose-change Gateway call (src/App.tsx lines 217-232), applied to
the pending state.  On success the updater copies the history array but writes the new
entry into the existing layer's pose-map object in place (a heap-cell update); on
failure the pose index is reverted to the value captured before the optimistic update. -/
def poseResolve (prevPoseIndex : Nat) (idx : Nat) (poseInstruction : String)
    (stp : AppState) (gw : Except String String) : AppState :=
  match gw with
  | Except.ok newImageUrl =>
    match stp.outfitHistory[idx]? with
    | some updatedLayer =>
      { stp with
        heap := stp.heap.set updatedLayer.poseImages
          ((stp.heap.getD updatedLayer.poseImages []).setVal poseInstruction newImageUrl),
        isLoading := false,
        loadingMessage := "" }
    | none =>
      { stp with isLoading := false, loadingMessage := "" }
  | Except.error e =>
    { stp with
      error := some (getFriendlyErrorMessage e "Failed to change pose"),
      currentPoseIndex := prevPoseIndex,
      isLoading := false,
      loadingMessage := "" }

/-- `handlePoseSelect` (src/App.tsx lines 192-233). -/
def handlePoseSelect (st : AppState) (newIndex : Nat)
    (gw : Except String String) : AppState :=
  if st.isLoading ∨ st.outfitHistory = [] ∨ newIndex = st.currentPoseIndex then st
  else
    let poseInstruction := poseKeyAt newIndex
    match st.outfitHistory[st.currentOutfitIndex]? with
    | none => st
    | some currentLayer =>
      let m := derefMap st.heap currentLayer
      if (m.getVal poseInstruction).isSome then
        { st with currentPoseIndex := newIndex }
      else
        match m.firstVal with
        | none => st
        | some _ =>
          poseResolve st.currentPoseIndex st.currentOutfitIndex poseInstruction
            (posePending st newIndex) gw

/-- `handleSaveOutfit` (src/App.tsx lines 235-254).  `promptResult` is the outcome of
`window.prompt` (`none` for cancel) and `newId` stands for `Date.now().toString()`.
The saved record's `layers` field is the live history itself, not a copy. -/
def handleSaveOutfit (st : AppState) (promptResult : Option String)
    (newId : String) : AppState :=
  if st.outfitHistory.length ≤ 1 ∨ displayImageUrl st = none ∨ st.modelImageUrl = none
  then st
  else
    match promptResult with
    | none => st
    | some nm =>
      if nm = "" then st
      else
        { st with
          savedOutfits := st.savedOutfits ++ [{
            id := newId,
            name := nm,
            previewImageUrl := (displayImageUrl st).getD "",
            modelImageUrl := st.modelImageUrl.getD "",
            layers := st.outfitHistory }] }

/-- `handleLoadOutfit` (src/App.tsx lines 256-265); `confirmed` is the outcome of
`window.confirm`.  The loaded layers (sharing their pose-map cells with the archive
copy) become the live history. -/
def handleLoadOutfit (st : AppState) (outfit : SavedOutfit) (confirmed : Bool) : AppState :=
  if confirmed then
    { st with
      modelImageUrl := some outfit.modelImageUrl,
      outfitHistory := outfit.layers,
      currentOutfitIndex := outfit.layers.length - 1,
      currentPoseIndex := 0,
      error := none }
  else st

/-- `handleDeleteOutfit` (src/App.tsx lines 267-273). -/
def handleDeleteOutfit (st : AppState) (outfitId : String) (confirmed : Bool) : AppState :=
  if confirmed then
    { st with savedOutfits := st.savedOutfits.filter (fun o => o.id ≠ outfitId) }
  else st

/-- `handleOpenColorPicker` (src/App.tsx lines 275-278). -/
def handleOpenColorPicker (st : AppState) (layerIndex : Nat) : AppState :=
  { st with
    selectedLayerIndexForRecolor := some layerIndex,
    isColorPickerOpen := true }

/-- `handleRecolorGarment` (src/App.tsx lines 280-317).  Note there is no busy-flag
guard.  On success the selected layer is replaced by a fresh layer object whose pose
map is a fresh single-entry object keyed at the current pose instruction; on failure
only the error message changes.  The `finally` block closes the picker and clears the
selection on both paths. -/
def handleRecolorGarment (st : AppState) (colorName : String)
    (gw : Except String String) : AppState :=
  match st.selectedLayerIndexForRecolor with
  | none => st
  | some selIdx =>
    if displayImageUrl st = none then st
    else
      match st.outfitHistory[selIdx]? with
      | none => st
      | some layerToRecolor =>
        match layerToRecolor.item with
        | none => st
        | some _ =>
          match gw with
          | Except.ok newImageUrl =>
            { st with
              error := none,
              heap := st.heap ++ [[(poseKeyAt st.currentPoseIndex, newImageUrl)]],
              outfitHistory := st.outfitHistory.set selIdx
                { layerToRecolor with poseImages := st.heap.length },
              isLoading := false,
              loadingMessage := "",
              isColorPickerOpen := false,
              selectedLayerIndexForRecolor := none }
          | Except.error e =>
            { st with
              error := some (getFriendlyErrorMessage e "Failed to recolor item"),
              isLoading := false,
              loadingMessage := "",
              isColorPickerOpen := false,
              selectedLayerIndexForRecolor := none }

/-- `handleItemClick` of the wardrobe panel (src/components/WardrobeModal lines
502-513): ignore the click while loading or when the item's id is already among the
active layers' items; otherwise convert the item's URL to a file (`fileOk` is the
outcome; on failure only the panel's local error is set) and delegate to
`handleItemSelect`. -/
def handleItemClick (st : AppState) (item : WardrobeItem) (fileOk : Bool)
    (gw : Except String String) : AppState :=
  if st.isLoading ∨ (activeItemIds st).contains item.id then st
  else if fileOk then handleItemSelect st item gw
  else st

/-- One user-level operation of the session, with the outcomes of external
interactions (Gateway calls, prompts, confirms) carried as data. -/
inductive Action where
  | modelFinalized (url : String)
  | startOver
  | itemSelect (item : WardrobeItem) (gw : Except String String)
  | removeLast
  | poseSelect (newIndex : Nat) (gw : Except String String)
  | saveOutfit (promptResult : Option String) (newId : String)
  | loadOutfit (i : Nat) (confirmed : Bool)
  | deleteOutfit (outfitId : String) (confirmed : Bool)
  | openColorPicker (layerIndex : Nat)
  | recolor (colorName : String) (gw : Except String String)
  | wardrobeClick (item : WardrobeItem) (fileOk : Bool) (gw : Except String String)

/-- Dispatch one operation.  A load action names an archive entry by index, as the
saved-outfits panel does. -/
def step (st : AppState) (a : Action) : AppState :=
  match a with
  | Action.modelFinalized url => handleModelFinalized st url
  | Action.startOver => handleStartOver st
  | Action.itemSelect item gw => handleItemSelect st item gw
  | Action.removeLast => handleRemoveLastGarment st
  | Action.poseSelect i gw => handlePoseSelect st i gw
  | Action.saveOutfit nm newId => handleSaveOutfit st nm newId
  | Action.loadOutfit i c =>
    match st.savedOutfits[i]? with
    | some o => handleLoadOutfit st o c
    | none => st
  | Action.deleteOutfit oid c => handleDeleteOutfit st oid c
  | Action.openColorPicker i => handleOpenColorPicker st i
  | Action.recolor color gw => handleRecolorGarment st color gw
  | Action.wardrobeClick item fileOk gw => handleItemClick st item fileOk gw

/-- The initial React state (src/App.tsx lines 58-72) before a base model exists. -/
def initState : AppState :=
  { modelImageUrl := none,
    outfitHistory := [],
    currentOutfitIndex := 0,
    isLoading := false,
    loadingMessage := "",
    error := none,
    currentPoseIndex := 0,
    wardrobe := defaultWardrobe,
    accessories := defaultAccessories,
    savedOutfits := [],
    selectedLayerIndexForRecolor := none,
    isColorPickerOpen := false,
    heap := [] }

/-- Well-formedness of a session state: the active position stays inside a non-empty
history, an empty history only occurs before a base model exists, archived outfits are
never empty (the save guard requires at least two layers), and every pose-map
reference in the history or the archive points into the heap. -/
def WF (st : AppState) : Prop :=
  (st.outfitHistory = [] → st.modelImageUrl = none) ∧
  (st.outfitHistory ≠ [] → st.currentOutfitIndex < st.outfitHistory.length) ∧
  (∀ o ∈ st.savedOutfits, o.layers ≠ []) ∧
  (∀ l ∈ st.outfitHistory, l.poseImages < st.heap.length) ∧
  (∀ o ∈ st.savedOutfits, ∀ l ∈ o.layers, l.poseImages < st.heap.length)

/-- The dereferenced (item, pose map) contents of a saved outfit's layers, as an
observer of the archive would read them. -/
def savedLayersView (heap : Heap) (o : SavedOutfit) : List (Option WardrobeItem × PoseMap) :=
  o.layers.map (fun l => (l.item, derefMap heap l))

/-- The dereferenced contents of the whole archive. -/
def savedViews (st : AppState) : List (List (Option WardrobeItem × PoseMap)) :=
  st.savedOutfits.map (savedLayersView st.heap)

/-! ### Heap access lemmas -/

theorem getD_append_of_lt {h : Heap} (t : Heap) {r : Nat} (hr : r < h.length) :
    (h ++ t).getD r [] = h.getD r [] := by
  simp [List.getD, List.getElem?_append, hr]

theorem getD_concat_length (h : Heap) (x : PoseMap) :
    (h ++ [x]).getD h.length [] = x := by
  simp [List.getD, List.getElem?_concat_length]

theorem getD_set_self {h : Heap} {r : Nat} (v : PoseMap) (hr : r < h.length) :
    (h.set r v).getD r [] = v := by
  simp [List.getD, List.getElem?_set_eq_of_lt v hr]

theorem getD_set_other {h : Heap} {r s : Nat} (v : PoseMap) (hne : r ≠ s) :
    (h.set r v).getD s [] = h.getD s [] := by
  simp [List.getD, List.getElem?_set_ne hne]

theorem lt_length_of_getElem? {α : Type} {l : List α} {i : Nat} {x : α}
    (h : l[i]? = some x) : i < l.length :=
  (List.getElem?_eq_some.mp h).1

theorem mem_of_getElem? {α : Type} {l : List α} {i : Nat} {x : α}
    (h : l[i]? = some x) : x ∈ l := by
  obtain ⟨hl, rfl⟩ := List.getElem?_eq_some.mp h
  exact List.getElem_mem hl

/-- A state with a non-`none` display image has a non-empty history, provided an empty
history only occurs before a base model exists. -/
theorem history_ne_nil_of_display (st : AppState)
    (h1 : st.outfitHistory = [] → st.modelImageUrl = none)
    (hd : displayImageUrl st ≠ none) : st.outfitHistory ≠ [] := by
  intro h
  apply hd
  unfold displayImageUrl
  rw [if_pos h]
  exact h1 h

/-- A cache hit needs a layer right after the active position. -/
theorem cacheHit_lt (st : AppState) (itemInfo : WardrobeItem)
    (h : cacheHit st itemInfo = true) :
    st.currentOutfitIndex + 1 < st.outfitHistory.length := by
  unfold cacheHit at h
  cases hn : st.outfitHistory[st.currentOutfitIndex + 1]? with
  | none => rw [hn] at h; simp at h
  | some nl => exact lt_length_of_getElem? hn

/-! ### Preservation of well-formedness by every operation -/

theorem wf_handleModelFinalized (st : AppState) (url : String) (h : WF st) :
    WF (handleModelFinalized st url) := by
  obtain ⟨h1, h2, h3, h4, h5⟩ := h
  refine ⟨by simp [handleModelFinalized], by simp [handleModelFinalized], ?_, ?_, ?_⟩
  · intro o ho
    exact h3 o ho
  · intro l hl
    simp [handleModelFinalized] at hl
    simp [handleModelFinalized, hl]
  · intro o ho l hl
    have := h5 o ho l hl
    simp [handleModelFinalized]
    omega

theorem wf_handleStartOver (st : AppState) (h : WF st) :
    WF (handleStartOver st) := by
  obtain ⟨h1, h2, h3, h4, h5⟩ := h
  refine ⟨fun _ => rfl, by simp [handleStartOver], ?_, by simp [handleStartOver], ?_⟩
  · intro o ho
    exact h3 o ho
  · intro o ho l hl
    exact h5 o ho l hl

theorem wf_handleItemSelect (st : AppState) (itemInfo : WardrobeItem)
    (gw : Except String String) (h : WF st) :
    WF (handleItemSelect st itemInfo gw) := by
  obtain ⟨h1, h2, h3, h4, h5⟩ := h
  unfold handleItemSelect
  by_cases hg : displayImageUrl st = none ∨ st.isLoading = true
  · rw [if_pos hg]
    exact ⟨h1, h2, h3, h4, h5⟩
  rw [if_neg hg]
  have hd : displayImageUrl st ≠ none := fun hc => hg (Or.inl hc)
  have hne : st.outfitHistory ≠ [] := history_ne_nil_of_display st h1 hd
  have hidx : st.currentOutfitIndex < st.outfitHistory.length := h2 hne
  by_cases hch : cacheHit st itemInfo = true
  · rw [if_pos hch]
    refine ⟨by simp [hne], ?_, h3, h4, h5⟩
    intro _
    have := cacheHit_lt st itemInfo hch
    simpa using this
  rw [if_neg hch]
  cases gw with
  | error e =>
    have hred : itemSelectGenerate st itemInfo (Except.error e) = { st with
        error := some (getFriendlyErrorMessage e ("Failed to apply " ++ itemInfo.type)),
        isLoading := false, loadingMessage := "" } := rfl
    rw [hred]
    exact ⟨h1, h2, h3, h4, h5⟩
  | ok img =>
    have htk : (st.outfitHistory.take (st.currentOutfitIndex + 1)).length =
        st.currentOutfitIndex + 1 := by
      rw [List.length_take]
      omega
    have hred : itemSelectGenerate st itemInfo (Except.ok img) = { st with
        error := none, isLoading := false, loadingMessage := "",
        heap := st.heap ++ [[(poseKeyAt st.currentPoseIndex, img)]],
        outfitHistory := st.outfitHistory.take (st.currentOutfitIndex + 1) ++
          [{ item := some itemInfo, poseImages := st.heap.length }],
        currentOutfitIndex := st.currentOutfitIndex + 1,
        wardrobe := if itemInfo.type = "garment"
          then addIfAbsent st.wardrobe itemInfo else st.wardrobe,
        accessories := if itemInfo.type = "garment"
          then st.accessories else addIfAbsent st.accessories itemInfo } := rfl
    rw [hred]
    refine ⟨by simp, ?_, h3, ?_, ?_⟩
    · intro _
      simp [List.length_append, htk]
    · intro l hl
      simp only [List.mem_append, List.mem_singleton] at hl
      rcases hl with hl | hl
      · have := h4 l (List.mem_of_mem_take hl)
        simp [List.length_append]
        omega
      · subst hl
        simp [List.length_append]
    · intro o ho l hl
      have := h5 o ho l hl
      simp [List.length_append]
      omega

theorem wf_handleRemoveLastGarment (st : AppState) (h : WF st) :
    WF (handleRemoveLastGarment st) := by
  obtain ⟨h1, h2, h3, h4, h5⟩ := h
  unfold handleRemoveLastGarment
  by_cases hp : st.currentOutfitIndex > 0
  · rw [if_pos hp]
    refine ⟨h1, ?_, h3, h4, h5⟩
    intro hne
    have := h2 hne
    simp only
    omega
  · rw [if_neg hp]
    exact ⟨h1, h2, h3, h4, h5⟩

theorem wf_posePendingResolve (st : AppState) (prevPoseIndex idx newIndex : Nat)
    (key : String) (gw : Except String String) (h : WF st) :
    WF (poseResolve prevPoseIndex idx key (posePending st newIndex) gw) := by
  obtain ⟨h1, h2, h3, h4, h5⟩ := h
  unfold poseResolve posePending
  cases gw with
  | error e => exact ⟨h1, h2, h3, h4, h5⟩
  | ok img =>
    cases hl : st.outfitHistory[idx]? with
    | none => exact ⟨h1, h2, h3, h4, h5⟩
    | some updatedLayer =>
      simp only [hl]
      refine ⟨h1, h2, h3, ?_, ?_⟩
      · intro l hml
        have := h4 l hml
        simpa [List.length_set] using this
      · intro o ho l hml
        have := h5 o ho l hml
        simpa [List.length_set] using this

theorem wf_handlePoseSelect (st : AppState) (newIndex : Nat)
    (gw : Except String String) (h : WF st) :
    WF (handlePoseSelect st newIndex gw) := by
  have h' := h
  obtain ⟨h1, h2, h3, h4, h5⟩ := h'
  unfold handlePoseSelect
  by_cases hg : st.isLoading = true ∨ st.outfitHistory = [] ∨
      newIndex = st.currentPoseIndex
  · rw [if_pos hg]
    exact h
  rw [if_neg hg]
  cases hl : st.outfitHistory[st.currentOutfitIndex]? with
  | none => exact h
  | some currentLayer =>
    simp only
    by_cases hk : ((derefMap st.heap currentLayer).getVal (poseKeyAt newIndex)).isSome = true
    · rw [if_pos hk]
      exact ⟨h1, h2, h3, h4, h5⟩
    rw [if_neg hk]
    cases hf : (derefMap st.heap currentLayer).firstVal with
    | none => exact h
    | some b => exact wf_posePendingResolve st _ _ _ _ _ h

theorem wf_handleSaveOutfit (st : AppState) (promptResult : Option String)
    (newId : String) (h : WF st) :
    WF (handleSaveOutfit st promptResult newId) := by
  obtain ⟨h1, h2, h3, h4, h5⟩ := h
  by_cases hg : st.outfitHistory.length ≤ 1 ∨ displayImageUrl st = none ∨
      st.modelImageUrl = none
  · have hred : handleSaveOutfit st promptResult newId = st := by
      unfold handleSaveOutfit
      rw [if_pos hg]
    rw [hred]
    exact ⟨h1, h2, h3, h4, h5⟩
  have hlen : 1 < st.outfitHistory.length := by
    by_contra hc
    exact hg (Or.inl (by omega))
  cases promptResult with
  | none =>
    have hred : handleSaveOutfit st none newId = st := by
      unfold handleSaveOutfit
      rw [if_neg hg]
    rw [hred]
    exact ⟨h1, h2, h3, h4, h5⟩
  | some nm =>
    by_cases hnm : nm = ""
    · have hred : handleSaveOutfit st (some nm) newId = st := by
        unfold handleSaveOutfit
        rw [if_neg hg]
        simp [hnm]
      rw [hred]
      exact ⟨h1, h2, h3, h4, h5⟩
    have hred : handleSaveOutfit st (some nm) newId = { st with
        savedOutfits := st.savedOutfits ++ [{
          id := newId, name := nm,
          previewImageUrl := (displayImageUrl st).getD "",
          modelImageUrl := st.modelImageUrl.getD "",
          layers := st.outfitHistory }] } := by
      unfold handleSaveOutfit
      rw [if_neg hg]
      simp [hnm]
    rw [hred]
    refine ⟨h1, h2, ?_, h4, ?_⟩
    · intro o ho
      simp only [List.mem_append, List.mem_singleton] at ho
      rcases ho with ho | ho
      · exact h3 o ho
      · subst ho
        simp only
        intro hc
        rw [hc] at hlen
        simp at hlen
    · intro o ho l hml
      simp only [List.mem_append, List.mem_singleton] at ho
      rcases ho with ho | ho
      · exact h5 o ho l hml
      · subst ho
        exact h4 l hml

theorem wf_handleLoadOutfit (st : AppState) (outfit : SavedOutfit) (confirmed : Bool)
    (hmem : outfit ∈ st.savedOutfits) (h : WF st) :
    WF (handleLoadOutfit st outfit confirmed) := by
  obtain ⟨h1, h2, h3, h4, h5⟩ := h
  unfold handleLoadOutfit
  cases confirmed with
  | false => exact ⟨h1, h2, h3, h4, h5⟩
  | true =>
    simp only [if_true]
    have hne : outfit.layers ≠ [] := h3 outfit hmem
    refine ⟨fun hc => absurd hc hne, ?_, h3, ?_, h5⟩
    · intro _
      simp only
      have : 0 < outfit.layers.length := List.length_pos.mpr hne
      omega
    · intro l hml
      exact h5 outfit hmem l hml

theorem wf_handleDeleteOutfit (st : AppState) (outfitId : String) (confirmed : Bool)
    (h : WF st) : WF (handleDeleteOutfit st outfitId confirmed) := by
  obtain ⟨h1, h2, h3, h4, h5⟩ := h
  unfold handleDeleteOutfit
  cases confirmed with
  | false => exact ⟨h1, h2, h3, h4, h5⟩
  | true =>
    simp only [if_true]
    refine ⟨h1, h2, ?_, h4, ?_⟩
    · intro o ho
      exact h3 o (List.mem_of_mem_filter ho)
    · intro o ho l hml
      exact h5 o (List.mem_of_mem_filter ho) l hml

theorem wf_handleOpenColorPicker (st : AppState) (layerIndex : Nat) (h : WF st) :
    WF (handleOpenColorPicker st layerIndex) := by
  obtain ⟨h1, h2, h3, h4, h5⟩ := h
  exact ⟨h1, h2, h3, h4, h5⟩

theorem wf_handleRecolorGarment (st : AppState) (colorName : String)
    (gw : Except String String) (h : WF st) :
    WF (handleRecolorGarment st colorName gw) := by
  obtain ⟨h1, h2, h3, h4, h5⟩ := h
  cases hs : st.selectedLayerIndexForRecolor with
  | none =>
    have hred : handleRecolorGarment st colorName gw = st := by
      unfold handleRecolorGarment
      simp [hs]
    rw [hred]
    exact ⟨h1, h2, h3, h4, h5⟩
  | some selIdx =>
    by_cases hd : displayImageUrl st = none
    · have hred : handleRecolorGarment st colorName gw = st := by
        unfold handleRecolorGarment
        simp [hs, hd]
      rw [hred]
      exact ⟨h1, h2, h3, h4, h5⟩
    cases hl : st.outfitHistory[selIdx]? with
    | none =>
      have hred : handleRecolorGarment st colorName gw = st := by
        unfold handleRecolorGarment
        simp [hs, hd, hl]
      rw [hred]
      exact ⟨h1, h2, h3, h4, h5⟩
    | some layerToRecolor =>
      cases hit : layerToRecolor.item with
      | none =>
        have hred : handleRecolorGarment st colorName gw = st := by
          unfold handleRecolorGarment
          simp [hs, hd, hl, hit]
        rw [hred]
        exact ⟨h1, h2, h3, h4, h5⟩
      | some it =>
        cases gw with
        | error e =>
          have hred : handleRecolorGarment st colorName (Except.error e) = { st with
              error := some (getFriendlyErrorMessage e "Failed to recolor item"),
              isLoading := false, loadingMessage := "",
              isColorPickerOpen := false,
              selectedLayerIndexForRecolor := none } := by
            unfold handleRecolorGarment
            simp [hs, hd, hl, hit]
          rw [hred]
          exact ⟨h1, h2, h3, h4, h5⟩
        | ok img =>
          have hred : handleRecolorGarment st colorName (Except.ok img) = { st with
              error := none,
              heap := st.heap ++ [[(poseKeyAt st.currentPoseIndex, img)]],
              outfitHistory := st.outfitHistory.set selIdx
                { layerToRecolor with poseImages := st.heap.length },
              isLoading := false, loadingMessage := "",
              isColorPickerOpen := false,
              selectedLayerIndexForRecolor := none } := by
            unfold handleRecolorGarment
            simp [hs, hd, hl, hit]
          rw [hred]
          refine ⟨?_, ?_, h3, ?_, ?_⟩
          · intro hc
            exfalso
            have hlt := lt_length_of_getElem? hl
            have hc' : st.outfitHistory.set selIdx
                { layerToRecolor with poseImages := st.heap.length } = [] := hc
            have hlen0 := congrArg List.length hc'
            rw [List.length_set] at hlen0
            simp only [List.length_nil] at hlen0
            omega
          · intro hne
            simp only [List.length_set]
            apply h2
            intro hc
            rw [hc] at hl
            simp at hl
          · intro l hml
            simp only [List.length_append, List.length_singleton]
            rcases List.mem_or_eq_of_mem_set hml with hml | hml
            · have := h4 l hml
              omega
            · subst hml
              simp
          · intro o ho l hml
            have := h5 o ho l hml
            simp only [List.length_append, List.length_singleton]
            omega

theorem wf_handleItemClick (st : AppState) (item : WardrobeItem) (fileOk : Bool)
    (gw : Except String String) (h : WF st) :
    WF (handleItemClick st item fileOk gw) := by
  unfold handleItemClick
  by_cases hg : st.isLoading = true ∨ (activeItemIds st).contains item.id = true
  · rw [if_pos hg]
    exact h
  rw [if_neg hg]
  cases fileOk with
  | false => exact h
  | true => exact wf_handleItemSelect st item gw h

/-- Every operation of the session preserves well-formedness. -/
theorem wf_step (st : AppState) (a : Action) (h : WF st) : WF (step st a) := by
  cases a with
  | modelFinalized url => exact wf_handleModelFinalized st url h
  | startOver => exact wf_handleStartOver st h
  | itemSelect item gw => exact wf_handleItemSelect st item gw h
  | removeLast => exact wf_handleRemoveLastGarment st h
  | poseSelect i gw => exact wf_handlePoseSelect st i gw h
  | saveOutfit nm newId => exact wf_handleSaveOutfit st nm newId h
  | loadOutfit i c =>
    show WF (match st.savedOutfits[i]? with
      | some o => handleLoadOutfit st o c
      | none => st)
    cases hi : st.savedOutfits[i]? with
    | none =>
      simp only [hi]
      exact h
    | some o =>
      simp only [hi]
      exact wf_handleLoadOutfit st o c (mem_of_getElem? hi) h
  | deleteOutfit oid c => exact wf_handleDeleteOutfit st oid c h
  | openColorPicker i => exact wf_handleOpenColorPicker st i h
  | recolor color gw => exact wf_handleRecolorGarment st color gw h
  | wardrobeClick item fileOk gw => exact wf_handleItemClick st item fileOk gw h

/-! ### Claim theorems -/

/-- C1: on the add-item success path (guards passed, no cache hit), the handler
truncates history to indices 0 through the active position, appends the freshly built
layer — whose pose map holds the Gateway result under the current pose instruction —
and advances the active position by one; every layer after the old active position is
discarded and the new layer is the last element of the new history. -/
theorem itemSelect_truncates_and_appends (st : AppState) (itemInfo : WardrobeItem)
    (img : String)
    (hd : displayImageUrl st ≠ none) (hl : st.isLoading = false)
    (hc : cacheHit st itemInfo = false)
    (hlt : st.currentOutfitIndex + 1 < st.outfitHistory.length) :
    (handleItemSelect st itemInfo (Except.ok img)).outfitHistory =
      st.outfitHistory.take (st.currentOutfitIndex + 1) ++
        [{ item := some itemInfo, poseImages := st.heap.length }] ∧
    (handleItemSelect st itemInfo (Except.ok img)).currentOutfitIndex =
      st.currentOutfitIndex + 1 ∧
    (handleItemSelect st itemInfo (Except.ok img)).outfitHistory.length =
      st.currentOutfitIndex + 2 ∧
    (handleItemSelect st itemInfo (Except.ok img)).outfitHistory.getLast? =
      some { item := some itemInfo, poseImages := st.heap.length } ∧
    derefMap (handleItemSelect st itemInfo (Except.ok img)).heap
        { item := some itemInfo, poseImages := st.heap.length } =
      [(poseKeyAt st.currentPoseIndex, img)] := by
  have hIf : ¬ (displayImageUrl st = none ∨ st.isLoading = true) := by
    simp [hd, hl]
  have hC : ¬ (cacheHit st itemInfo = true) := by simp [hc]
  have hhist : (handleItemSelect st itemInfo (Except.ok img)).outfitHistory =
      st.outfitHistory.take (st.currentOutfitIndex + 1) ++
        [{ item := some itemInfo, poseImages := st.heap.length }] := by
    unfold handleItemSelect
    rw [if_neg hIf, if_neg hC]
    rfl
  have hheap : (handleItemSelect st itemInfo (Except.ok img)).heap =
      st.heap ++ [[(poseKeyAt st.currentPoseIndex, img)]] := by
    unfold handleItemSelect
    rw [if_neg hIf, if_neg hC]
    rfl
  have hidx : (handleItemSelect st itemInfo (Except.ok img)).currentOutfitIndex =
      st.currentOutfitIndex + 1 := by
    unfold handleItemSelect
    rw [if_neg hIf, if_neg hC]
    rfl
  refine ⟨hhist, hidx, ?_, ?_, ?_⟩
  · rw [hhist]
    simp [List.length_take, Nat.min_eq_left (Nat.le_of_lt hlt)]
  · rw [hhist]
    simp
  · rw [hheap]
    exact getD_concat_length st.heap _

/-- C2: when the layer right after the active position exists and carries the selected
item's id, the handler is a pure cache hit: for every Gateway outcome the resulting
state only advances the active position by one and resets the pose position to the
catalog's first index — history, wardrobe, accessories and everything else unchanged. -/
theorem itemSelect_cache_hit_no_call (st : AppState) (itemInfo : WardrobeItem)
    (nl : OutfitLayer) (it : WardrobeItem)
    (hd : displayImageUrl st ≠ none) (hl : st.isLoading = false)
    (hn : st.outfitHistory[st.currentOutfitIndex + 1]? = some nl)
    (hi : nl.item = some it) (hid : it.id = itemInfo.id) :
    ∀ gw, handleItemSelect st itemInfo gw =
      { st with currentOutfitIndex := st.currentOutfitIndex + 1,
                currentPoseIndex := 0 } := by
  intro gw
  have hch : cacheHit st itemInfo = true := by
    unfold cacheHit
    simp [hn, hi, hid]
  unfold handleItemSelect
  rw [if_neg (by simp [hd, hl]), if_pos hch]

/-- C3: for a pose-change request targeting a pose not yet generated for the active
layer, the pending state (before the Gateway call resolves) already carries the new
pose index — the optimistic update — and on Gateway failure the final state reverts
the pose position to exactly its prior value, leaving the history and every pose map
(the heap) unchanged. -/
theorem poseSelect_optimistic_rollback (st : AppState) (newIndex : Nat)
    (layer : OutfitLayer)
    (hl : st.isLoading = false) (hne : st.outfitHistory ≠ [])
    (hnewne : newIndex ≠ st.currentPoseIndex)
    (hidx : st.outfitHistory[st.currentOutfitIndex]? = some layer)
    (hmiss : (derefMap st.heap layer).getVal (poseKeyAt newIndex) = none)
    (hbase : (derefMap st.heap layer).firstVal.isSome = true) :
    (posePending st newIndex).currentPoseIndex = newIndex ∧
    ∀ e, (handlePoseSelect st newIndex (Except.error e)).currentPoseIndex
          = st.currentPoseIndex ∧
      (handlePoseSelect st newIndex (Except.error e)).outfitHistory =
        st.outfitHistory ∧
      (handlePoseSelect st newIndex (Except.error e)).heap = st.heap := by
  refine ⟨rfl, ?_⟩
  intro e
  obtain ⟨b, hb⟩ := Option.isSome_iff_exists.mp hbase
  unfold handlePoseSelect
  rw [if_neg (by simp [hl, hne, hnewne])]
  simp only [hidx, hmiss, hb, Option.isSome_none, Bool.false_eq_true, if_false]
  exact ⟨rfl, rfl, rfl⟩

/-- C8: a successful recolor of the selected layer replaces that layer by a fresh one
whose pose map holds exactly one entry, keyed at the current pose instruction and
mapping to the Gateway result; every other history slot keeps its layer, every
previously allocated pose map is untouched, and a Gateway failure leaves both the
history and the heap unchanged. -/
theorem recolor_single_fresh_entry (st : AppState) (colorName img : String)
    (selIdx : Nat) (layer : OutfitLayer) (it : WardrobeItem)
    (hsel : st.selectedLayerIndexForRecolor = some selIdx)
    (hd : displayImageUrl st ≠ none)
    (hlay : st.outfitHistory[selIdx]? = some layer)
    (hit : layer.item = some it) :
    (handleRecolorGarment st colorName (Except.ok img)).outfitHistory[selIdx]? =
      some { item := some it, poseImages := st.heap.length } ∧
    derefMap (handleRecolorGarment st colorName (Except.ok img)).heap
        { item := some it, poseImages := st.heap.length } =
      [(poseKeyAt st.currentPoseIndex, img)] ∧
    (∀ j, j ≠ selIdx →
      (handleRecolorGarment st colorName (Except.ok img)).outfitHistory[j]? =
        st.outfitHistory[j]?) ∧
    (∀ l : OutfitLayer, l.poseImages < st.heap.length →
      derefMap (handleRecolorGarment st colorName (Except.ok img)).heap l =
        derefMap st.heap l) ∧
    (∀ e, (handleRecolorGarment st colorName (Except.error e)).outfitHistory =
        st.outfitHistory ∧
      (handleRecolorGarment st colorName (Except.error e)).heap = st.heap) := by
  have hd' : ¬ (displayImageUrl st = none) := hd
  have hset : (handleRecolorGarment st colorName (Except.ok img)).outfitHistory =
      st.outfitHistory.set selIdx { layer with poseImages := st.heap.length } := by
    unfold handleRecolorGarment
    simp [hsel, hd', hlay, hit]
  have hheap : (handleRecolorGarment st colorName (Except.ok img)).heap =
      st.heap ++ [[(poseKeyAt st.currentPoseIndex, img)]] := by
    unfold handleRecolorGarment
    simp [hsel, hd', hlay, hit]
  have hlen : selIdx < st.outfitHistory.length := lt_length_of_getElem? hlay
  refine ⟨?_, ?_, ?_, ?_, ?_⟩
  · rw [hset]
    rw [List.getElem?_set_eq_of_lt _ hlen]
    have : ({ layer with poseImages := st.heap.length } : OutfitLayer) =
        { item := some it, poseImages := st.heap.length } := by
      cases layer
      simp_all
    rw [this]
  · rw [hheap]
    exact getD_concat_length st.heap _
  · intro j hj
    rw [hset]
    exact List.getElem?_set_ne (Ne.symm hj)
  · intro l hlref
    rw [hheap]
    unfold derefMap
    exact getD_append_of_lt _ hlref
  · intro e
    unfold handleRecolorGarment
    simp [hsel, hd', hlay, hit]

/-- C9: every operation of the session (initialize, add item, remove last item,
change pose, recolor, save, load, delete, start over, wardrobe click) preserves the
invariant that the active position satisfies `0 ≤ activePosition < history.length`
whenever the Outfit History is non-empty. -/
theorem step_preserves_position_invariant (st : AppState) (a : Action) (h : WF st) :
    (step st a).outfitHistory ≠ [] →
      (step st a).currentOutfitIndex < (step st a).outfitHistory.length :=
  (wf_step st a h).2.1

/-! ### Concrete session traces (used by counterexamples and witnesses) -/

/-- A concrete garment. -/
def sampleTee : WardrobeItem :=
  { id := "sample-tee", name := "Sample Tee", url := "tee.png", type := "garment" }

/-- Base model installed. -/
def exBase : AppState := handleModelFinalized initState "base.png"

/-- Pose 1 generated for the base layer; the selected pose position is now 1. -/
def exPose1 : AppState := handlePoseSelect exBase 1 (Except.ok "base-pose1.png")

/-- The tee appended by a successful Gateway call (fresh layer keyed at pose 1). -/
def exTee : AppState := handleItemSelect exPose1 sampleTee (Except.ok "tee-applied.png")

/-- The last garment removed again (active position back to the base layer). -/
def exRm : AppState := handleRemoveLastGarment exTee

/-- The two-layer outfit saved under the name "look". -/
def exSaved : AppState := handleSaveOutfit exTee (some "look") "101"

/-- Pose 2 then generated for the live tee layer. -/
def exPose2 : AppState := handlePoseSelect exSaved 2 (Except.ok "tee-pose2.png")

/-- A busy state: a pose change is in flight for `exTee` and the user has opened the
color picker on the tee layer (neither the recolor button nor the picker is disabled
while loading). -/
def exBusy : AppState := handleOpenColorPicker (posePending exTee 3) 1

/-- A concrete saved outfit record. -/
def sampleOutfit : SavedOutfit :=
  { id := "7", name := "look", previewImageUrl := "p.png", modelImageUrl := "m.png",
    layers := exTee.outfitHistory }

/-- C6 counterexample: in a Busy state (a pose change in flight, `isLoading = true`)
a confirmed recolor still runs: it performs its Gateway call and mutates the outfit
history, so the claim that every mutating action is ignored while Busy is false. -/
theorem busy_recolor_proceeds_cex :
    exBusy.isLoading = true ∧
    (handleRecolorGarment exBusy "Red" (Except.ok "tee-red.png")).outfitHistory ≠
      exBusy.outfitHistory := by decide

/-- C6 amended: while the session is Busy, add-item — directly or through the
wardrobe panel — and change-pose are ignored: the state is returned unchanged for
every Gateway outcome.  Saving is kept unreachable by its disabled button, but the
recolor handler has no busy guard and proceeds while Busy (see the counterexample). -/
theorem busy_ignores_item_and_pose_actions (st : AppState) (h : st.isLoading = true) :
    (∀ itemInfo gw, handleItemSelect st itemInfo gw = st) ∧
    (∀ i gw, handlePoseSelect st i gw = st) ∧
    (∀ itemInfo fileOk gw, handleItemClick st itemInfo fileOk gw = st) := by
  refine ⟨?_, ?_, ?_⟩
  · intro itemInfo gw
    unfold handleItemSelect
    rw [if_pos (Or.inr h)]
  · intro i gw
    unfold handlePoseSelect
    rw [if_pos (Or.inl h)]
  · intro itemInfo fileOk gw
    unfold handleItemClick
    rw [if_pos (Or.inl h)]

/-- C6 witness: the busy guard at work on a concrete busy state. -/
theorem busy_ignores_item_and_pose_actions_witness :
    handleItemSelect exBusy sampleTee (Except.ok "x.png") = exBusy ∧
    handlePoseSelect exBusy 0 (Except.ok "y.png") = exBusy ∧
    handleItemClick exBusy sampleTee true (Except.ok "z.png") = exBusy := by
  have h := busy_ignores_item_and_pose_actions exBusy (by decide)
  exact ⟨h.1 sampleTee (Except.ok "x.png"), h.2.1 0 (Except.ok "y.png"),
    h.2.2 sampleTee true (Except.ok "z.png")⟩

/-- C7 counterexample: a fresh append (`exPose1` → `exTee`) changes the active layer
— the active position advances — but the selected pose position stays at 1 instead of
resetting to the catalog's first entry. -/
theorem fresh_append_keeps_pose_cex :
    exTee.currentOutfitIndex = exPose1.currentOutfitIndex + 1 ∧
    exPose1.currentPoseIndex = 1 ∧
    exTee.currentPoseIndex = 1 := by decide

/-- C7 amended: the pose position is reset to the Pose Catalog's first entry (index 0)
when the active layer changes by a cache-hit advance, by removing the last item, or by
loading a saved outfit; a fresh append instead keeps the current pose position (the
new layer is keyed at that pose). -/
theorem pose_resets_on_cache_advance_remove_load (st : AppState)
    (itemInfo : WardrobeItem) (gw : Except String String) (outfit : SavedOutfit) :
    (displayImageUrl st ≠ none → st.isLoading = false → cacheHit st itemInfo = true →
      (handleItemSelect st itemInfo gw).currentPoseIndex = 0) ∧
    (0 < st.currentOutfitIndex → (handleRemoveLastGarment st).currentPoseIndex = 0) ∧
    (handleLoadOutfit st outfit true).currentPoseIndex = 0 := by
  refine ⟨?_, ?_, rfl⟩
  · intro hd hl hch
    unfold handleItemSelect
    rw [if_neg (by simp [hd, hl]), if_pos hch]
  · intro hp
    unfold handleRemoveLastGarment
    rw [if_pos hp]

/-- C7 witness: the three reset paths on concrete states. -/
theorem pose_resets_on_cache_advance_remove_load_witness :
    (handleItemSelect exRm sampleTee (Except.error "net")).currentPoseIndex = 0 ∧
    (handleRemoveLastGarment exTee).currentPoseIndex = 0 ∧
    (handleLoadOutfit exRm sampleOutfit true).currentPoseIndex = 0 :=
  ⟨(pose_resets_on_cache_advance_remove_load exRm sampleTee (Except.error "net")
      sampleOutfit).1 (by decide) (by decide) (by decide),
   (pose_resets_on_cache_advance_remove_load exTee sampleTee (Except.error "net")
      sampleOutfit).2.1 (by decide),
   (pose_resets_on_cache_advance_remove_load exRm sampleTee (Except.error "net")
      sampleOutfit).2.2⟩

/-- Appending pose maps to the heap leaves the view of an archived outfit whose
references are all within the old heap unchanged. -/
theorem savedLayersView_heap_append (heap t : Heap) (o : SavedOutfit)
    (h : ∀ l ∈ o.layers, l.poseImages < heap.length) :
    savedLayersView (heap ++ t) o = savedLayersView heap o := by
  unfold savedLayersView
  apply List.map_congr_left
  intro l hl
  unfold derefMap
  rw [getD_append_of_lt t (h l hl)]

/-- Appending pose maps to the heap leaves the whole archive's view unchanged. -/
theorem savedViews_heap_extend (st : AppState) (t : Heap)
    (hrefs : ∀ o ∈ st.savedOutfits, ∀ l ∈ o.layers, l.poseImages < st.heap.length) :
    st.savedOutfits.map (savedLayersView (st.heap ++ t)) =
      st.savedOutfits.map (savedLayersView st.heap) := by
  apply List.map_congr_left
  intro o ho
  exact savedLayersView_heap_append st.heap t o (hrefs o ho)

/-- `handleItemSelect` never touches the archive and only ever appends to the heap. -/
theorem itemSelect_saved_heap (st : AppState) (itemInfo : WardrobeItem)
    (gw : Except String String) :
    (handleItemSelect st itemInfo gw).savedOutfits = st.savedOutfits ∧
    ∃ t, (handleItemSelect st itemInfo gw).heap = st.heap ++ t := by
  unfold handleItemSelect
  by_cases hg : displayImageUrl st = none ∨ st.isLoading = true
  · rw [if_pos hg]
    exact ⟨rfl, ⟨[], (List.append_nil _).symm⟩⟩
  rw [if_neg hg]
  by_cases hch : cacheHit st itemInfo = true
  · rw [if_pos hch]
    exact ⟨rfl, ⟨[], (List.append_nil _).symm⟩⟩
  rw [if_neg hch]
  cases gw with
  | ok img =>
    exact ⟨rfl, ⟨[[(poseKeyAt st.currentPoseIndex, img)]], rfl⟩⟩
  | error e =>
    exact ⟨rfl, ⟨[], (List.append_nil _).symm⟩⟩

/-- `handleRecolorGarment` never touches the archive and only ever appends to the
heap. -/
theorem recolor_saved_heap (st : AppState) (colorName : String)
    (gw : Except String String) :
    (handleRecolorGarment st colorName gw).savedOutfits = st.savedOutfits ∧
    ∃ t, (handleRecolorGarment st colorName gw).heap = st.heap ++ t := by
  unfold handleRecolorGarment
  cases st.selectedLayerIndexForRecolor with
  | none => exact ⟨rfl, ⟨[], (List.append_nil _).symm⟩⟩
  | some selIdx =>
    simp only
    by_cases hd : displayImageUrl st = none
    · rw [if_pos hd]
      exact ⟨rfl, ⟨[], (List.append_nil _).symm⟩⟩
    rw [if_neg hd]
    cases st.outfitHistory[selIdx]? with
    | none => exact ⟨rfl, ⟨[], (List.append_nil _).symm⟩⟩
    | some layerToRecolor =>
      simp only
      cases layerToRecolor.item with
      | none => exact ⟨rfl, ⟨[], (List.append_nil _).symm⟩⟩
      | some it =>
        simp only
        cases gw with
        | ok img =>
          exact ⟨rfl, ⟨[[(poseKeyAt st.currentPoseIndex, img)]], rfl⟩⟩
        | error e =>
          exact ⟨rfl, ⟨[], (List.append_nil _).symm⟩⟩

/-- C5 counterexample: after saving (`exSaved`) a later pose generation (`exPose2`)
leaves the archived records untouched as values, yet the dereferenced contents of the
archive change — the saved outfit's tee layer shares its pose-image map with the live
history, so the new pose entry shows up in the saved copy.  The history was therefore
stored by reference, not by value. -/
theorem saved_outfit_shares_mutation_cex :
    exPose2.savedOutfits = exSaved.savedOutfits ∧
    savedViews exPose2 ≠ savedViews exSaved := by decide

/-- C5 amended: saving stores the Outfit History by reference, not by value.
Operations that replace layer objects — appending an item, recoloring — leave every
saved outfit's dereferenced layers unchanged, but a successful pose generation writes
into the shared pose-map object of the active layer, so every archived layer that
references the same map observes the new entry. -/
theorem save_shares_layers_with_history (st : AppState)
    (hrefs : ∀ o ∈ st.savedOutfits, ∀ l ∈ o.layers, l.poseImages < st.heap.length) :
    (∀ itemInfo gw, savedViews (handleItemSelect st itemInfo gw) = savedViews st) ∧
    (∀ colorName gw,
      savedViews (handleRecolorGarment st colorName gw) = savedViews st) ∧
    (∀ newIndex img layer,
      st.isLoading = false → st.outfitHistory ≠ [] →
      newIndex ≠ st.currentPoseIndex →
      st.outfitHistory[st.currentOutfitIndex]? = some layer →
      (derefMap st.heap layer).getVal (poseKeyAt newIndex) = none →
      (derefMap st.heap layer).firstVal.isSome = true →
      layer.poseImages < st.heap.length →
      ∀ o ∈ st.savedOutfits, ∀ l ∈ o.layers, l.poseImages = layer.poseImages →
        derefMap (handlePoseSelect st newIndex (Except.ok img)).heap l =
          (derefMap st.heap layer).setVal (poseKeyAt newIndex) img) := by
  refine ⟨?_, ?_, ?_⟩
  · intro itemInfo gw
    obtain ⟨hs, t, ht⟩ := itemSelect_saved_heap st itemInfo gw
    unfold savedViews
    rw [hs, ht]
    exact savedViews_heap_extend st t hrefs
  · intro colorName gw
    obtain ⟨hs, t, ht⟩ := recolor_saved_heap st colorName gw
    unfold savedViews
    rw [hs, ht]
    exact savedViews_heap_extend st t hrefs
  · intro newIndex img layer hlod hne hnewne hidx hmiss hbase hlref o ho l hl2 hrefEq
    obtain ⟨b, hb⟩ := Option.isSome_iff_exists.mp hbase
    unfold handlePoseSelect
    rw [if_neg (by simp [hlod, hne, hnewne])]
    simp only [hidx, hmiss, hb, Option.isSome_none, Bool.false_eq_true, if_false]
    unfold poseResolve posePending
    simp only [hidx]
    unfold derefMap
    rw [hrefEq]
    exact getD_set_self _ hlref

/-- C5 witness: the amended behaviour on the concrete saved-outfit trace. -/
theorem save_shares_layers_with_history_witness :
    savedViews (handleItemSelect exSaved sampleTee (Except.ok "w.png")) =
      savedViews exSaved ∧
    savedViews (handleRecolorGarment exSaved "Red" (Except.ok "w.png")) =
      savedViews exSaved ∧
    derefMap exPose2.heap { item := some sampleTee, poseImages := 1 } =
      (derefMap exSaved.heap { item := some sampleTee, poseImages := 1 }).setVal
        (poseKeyAt 2) "tee-pose2.png" := by
  have h := save_shares_layers_with_history exSaved (by decide)
  refine ⟨h.1 sampleTee (Except.ok "w.png"), h.2.1 "Red" (Except.ok "w.png"), ?_⟩
  have h3 := h.2.2 2 "tee-pose2.png" { item := some sampleTee, poseImages := 1 }
    (by decide) (by decide) (by decide) (by decide) (by decide) (by decide) (by decide)
  exact h3 (SavedOutfit.mk "101" "look" "tee-applied.png" "base.png"
      exTee.outfitHistory) (by decide)
    { item := some sampleTee, poseImages := 1 } (by decide) (by decide)

/-! ### Add / remove sequences (C4) -/

/-- One add-item call: the selected item together with its Gateway outcome. -/
abbrev AddCall := WardrobeItem × Except String String

/-- Run one add-item call. -/
def addStep (st : AppState) (c : AddCall) : AppState :=
  handleItemSelect st c.1 c.2

/-- Run a sequence of add-item calls. -/
def runAdds (st : AppState) (cs : List AddCall) : AppState :=
  cs.foldl addStep st

/-- An add-item call that goes through: the guards pass and the call is either a
cache hit or a Gateway success. -/
def addOK (st : AppState) (c : AddCall) : Prop :=
  displayImageUrl st ≠ none ∧ st.isLoading = false ∧
    (cacheHit st c.1 = true ∨ ∃ img, c.2 = Except.ok img)

/-- Every call of the sequence goes through, in order. -/
def AddsOK : AppState → List AddCall → Prop
  | _, [] => True
  | st, c :: cs => addOK st c ∧ AddsOK (addStep st c) cs

/-- `n` clicks of "remove last garment". -/
def removeN (st : AppState) : Nat → AppState
  | 0 => st
  | n + 1 => removeN (handleRemoveLastGarment st) n

/-- A successful add-item call advances the position by one, keeps the history up to
the old active position, only appends to the heap, and ends not loading. -/
theorem addStep_ok (st : AppState) (c : AddCall) (hwf : WF st) (hok : addOK st c) :
    (addStep st c).currentOutfitIndex = st.currentOutfitIndex + 1 ∧
    (addStep st c).outfitHistory.take (st.currentOutfitIndex + 1) =
      st.outfitHistory.take (st.currentOutfitIndex + 1) ∧
    (∃ t, (addStep st c).heap = st.heap ++ t) ∧
    (addStep st c).isLoading = false := by
  obtain ⟨hd, hl, hcase⟩ := hok
  obtain ⟨h1, h2, h3, h4, h5⟩ := hwf
  have hne := history_ne_nil_of_display st h1 hd
  have hidx := h2 hne
  unfold addStep handleItemSelect
  rw [if_neg (by simp [hd, hl])]
  by_cases hch : cacheHit st c.1 = true
  · rw [if_pos hch]
    exact ⟨rfl, rfl, ⟨[], (List.append_nil _).symm⟩, hl⟩
  rw [if_neg hch]
  rcases hcase with hch' | ⟨img, himg⟩
  · exact absurd hch' hch
  rw [himg]
  refine ⟨rfl, ?_, ⟨[[(poseKeyAt st.currentPoseIndex, img)]], rfl⟩, rfl⟩
  show (st.outfitHistory.take (st.currentOutfitIndex + 1) ++
      ([{ item := some c.1, poseImages := st.heap.length }] : List OutfitLayer)).take
      (st.currentOutfitIndex + 1) =
    st.outfitHistory.take (st.currentOutfitIndex + 1)
  rw [List.take_append_of_le_length
    (by rw [List.length_take]; omega), List.take_take, Nat.min_self]

/-- A sequence of successful add-item calls advances the position by its length,
keeps the history up to the old active position, only appends to the heap, ends not
loading, and preserves well-formedness. -/
theorem runAdds_ok : ∀ (cs : List AddCall) (st : AppState), WF st → AddsOK st cs →
    st.isLoading = false →
    (runAdds st cs).currentOutfitIndex = st.currentOutfitIndex + cs.length ∧
    (runAdds st cs).outfitHistory.take (st.currentOutfitIndex + 1) =
      st.outfitHistory.take (st.currentOutfitIndex + 1) ∧
    (∃ t, (runAdds st cs).heap = st.heap ++ t) ∧
    (runAdds st cs).isLoading = false ∧ WF (runAdds st cs) := by
  intro cs
  induction cs with
  | nil =>
    intro st hwf _ hl
    exact ⟨rfl, rfl, ⟨[], (List.append_nil _).symm⟩, hl, hwf⟩
  | cons c cs ih =>
    intro st hwf hok hl
    obtain ⟨hok1, hoks⟩ := hok
    obtain ⟨ha1, ha2, ⟨t1, ht1⟩, ha4⟩ := addStep_ok st c hwf hok1
    have hwf1 : WF (addStep st c) := wf_handleItemSelect st c.1 c.2 hwf
    obtain ⟨hb1, hb2, ⟨t2, ht2⟩, hb4, hb5⟩ := ih (addStep st c) hwf1 hoks ha4
    have hrun : runAdds st (c :: cs) = runAdds (addStep st c) cs := rfl
    rw [hrun]
    refine ⟨?_, ?_, ⟨t1 ++ t2, ?_⟩, hb4, hb5⟩
    · rw [hb1, ha1, List.length_cons]
      omega
    · have hle : st.currentOutfitIndex + 1 ≤ (addStep st c).currentOutfitIndex + 1 := by
        rw [ha1]
        omega
      calc (runAdds (addStep st c) cs).outfitHistory.take (st.currentOutfitIndex + 1)
          = ((runAdds (addStep st c) cs).outfitHistory.take
              ((addStep st c).currentOutfitIndex + 1)).take
              (st.currentOutfitIndex + 1) := by
            rw [List.take_take, Nat.min_eq_left hle]
        _ = ((addStep st c).outfitHistory.take
              ((addStep st c).currentOutfitIndex + 1)).take
              (st.currentOutfitIndex + 1) := by rw [hb2]
        _ = (addStep st c).outfitHistory.take (st.currentOutfitIndex + 1) := by
            rw [List.take_take, Nat.min_eq_left hle]
        _ = st.outfitHistory.take (st.currentOutfitIndex + 1) := ha2
    · rw [ht2, ht1, List.append_assoc]

/-- `n + 1` removals from a position `i + (n + 1)` land exactly on position `i` with
the pose position reset, all other fields untouched. -/
theorem removeN_eq (n : Nat) : ∀ (st : AppState) (i : Nat),
    st.currentOutfitIndex = i + (n + 1) →
    removeN st (n + 1) =
      { st with currentOutfitIndex := i, currentPoseIndex := 0 } := by
  induction n with
  | zero =>
    intro st i h
    simp only [removeN]
    unfold handleRemoveLastGarment
    rw [if_pos (by omega)]
    have hi : st.currentOutfitIndex - 1 = i := by omega
    rw [hi]
  | succ m ih =>
    intro st i h
    have hstep : handleRemoveLastGarment st =
        { st with currentOutfitIndex := i + (m + 1), currentPoseIndex := 0 } := by
      unfold handleRemoveLastGarment
      rw [if_pos (by omega)]
      have hi : st.currentOutfitIndex - 1 = i + (m + 1) := by omega
      rw [hi]
    calc removeN st (m + 1 + 1) = removeN (handleRemoveLastGarment st) (m + 1) := rfl
      _ = { st with currentOutfitIndex := i, currentPoseIndex := 0 } := by
          rw [hstep]
          exact ih _ i rfl

/-- `displayImageUrl` over its fields taken as plain arguments (identical body; the
equation below certifies the correspondence). -/
def displayOf (heap : Heap) (hist : List OutfitLayer) (idx poseIdx : Nat)
    (model : Option String) : Option String :=
  if hist = [] then model
  else
    match hist[idx]? with
    | none => model
    | some currentLayer =>
      match PoseMap.getVal (heap.getD currentLayer.poseImages [])
          (poseKeyAt poseIdx) with
      | some img => some img
      | none => PoseMap.firstVal (heap.getD currentLayer.poseImages [])

theorem displayImageUrl_eq_displayOf (st : AppState) :
    displayImageUrl st = displayOf st.heap st.outfitHistory st.currentOutfitIndex
      st.currentPoseIndex st.modelImageUrl := rfl

/-- C4 counterexample: from the concrete state `exPose1` (selected pose position 1,
base layer holding images for poses 0 and 1) one successful add-item call followed by
one removal restores the active position but not the display image: the removal
resets the pose position to 0, so the base layer's pose-0 image is shown instead of
the pose-1 image that was displayed before the add. -/
theorem undo_not_exact_for_display_cex :
    displayImageUrl exPose1 ≠ none ∧
    exPose1.isLoading = false ∧
    (removeN (runAdds exPose1 [(sampleTee, Except.ok "tee-applied.png")]) 1).currentOutfitIndex = exPose1.currentOutfitIndex ∧
    displayImageUrl exPose1 = some "base-pose1.png" ∧
    displayImageUrl (removeN (runAdds exPose1 [(sampleTee, Except.ok "tee-applied.png")]) 1) = some "base.png" := by decide

/-- C4 amended: for every well-formed session state that is not busy, a sequence of
successful add-item calls followed by as many removals restores the active position
exactly — whatever the pose position was; the display image is also restored provided
the selected pose position before the adds was the Pose Catalog's first index (a
removal always resets the pose position to that index, so a different pre-add pose
selection is not restored). -/
theorem adds_then_removes_restore (st : AppState) (cs : List AddCall)
    (hwf : WF st) (hl : st.isLoading = false) (hok : AddsOK st cs) :
    (removeN (runAdds st cs) cs.length).currentOutfitIndex =
      st.currentOutfitIndex ∧
    (st.currentPoseIndex = 0 →
      displayImageUrl (removeN (runAdds st cs) cs.length) = displayImageUrl st) := by
  cases cs with
  | nil => exact ⟨rfl, fun _ => rfl⟩
  | cons c cs' =>
    obtain ⟨hr1, hr2, ⟨t, ht⟩, hr4, hr5⟩ := runAdds_ok (c :: cs') st hwf hok hl
    have hd0 : displayImageUrl st ≠ none := hok.1.1
    obtain ⟨h1, h2, h3, h4, h5⟩ := hwf
    have hneSt : st.outfitHistory ≠ [] := history_ne_nil_of_display st h1 hd0
    have hidxSt := h2 hneSt
    have hL : st.outfitHistory[st.currentOutfitIndex]? =
        some st.outfitHistory[st.currentOutfitIndex] :=
      List.getElem?_eq_getElem hidxSt
    have hmidL : (runAdds st (c :: cs')).outfitHistory[st.currentOutfitIndex]? =
        some st.outfitHistory[st.currentOutfitIndex] := by
      have e1 : ((runAdds st (c :: cs')).outfitHistory.take
          (st.currentOutfitIndex + 1))[st.currentOutfitIndex]? =
          (runAdds st (c :: cs')).outfitHistory[st.currentOutfitIndex]? := by
        rw [List.getElem?_take]
        simp
      have e2 : (st.outfitHistory.take
          (st.currentOutfitIndex + 1))[st.currentOutfitIndex]? =
          st.outfitHistory[st.currentOutfitIndex]? := by
        rw [List.getElem?_take]
        simp
      rw [← e1, hr2, e2, hL]
    have hmemL : st.outfitHistory[st.currentOutfitIndex] ∈ st.outfitHistory :=
      mem_of_getElem? hL
    have hrefL : st.outfitHistory[st.currentOutfitIndex].poseImages <
        st.heap.length := h4 _ hmemL
    have hFne : (runAdds st (c :: cs')).outfitHistory ≠ [] := by
      intro hc
      rw [hc] at hmidL
      simp at hmidL
    have hRn : removeN (runAdds st (c :: cs')) (c :: cs').length =
        { runAdds st (c :: cs') with
          currentOutfitIndex := st.currentOutfitIndex, currentPoseIndex := 0 } := by
      apply removeN_eq cs'.length (runAdds st (c :: cs')) st.currentOutfitIndex
      rw [hr1, List.length_cons]
    rw [hRn]
    refine ⟨rfl, ?_⟩
    intro hp
    show displayOf (runAdds st (c :: cs')).heap
        (runAdds st (c :: cs')).outfitHistory st.currentOutfitIndex 0
        (runAdds st (c :: cs')).modelImageUrl =
      displayOf st.heap st.outfitHistory st.currentOutfitIndex
        st.currentPoseIndex st.modelImageUrl
    rw [ht, hp]
    unfold displayOf
    rw [if_neg hFne, if_neg hneSt]
    simp only [hmidL, hL]
    rw [getD_append_of_lt t hrefL]

/-! ### End of add / remove sequences -/

/-- A concrete accessory distinct from the items in the concrete traces. -/
def sampleHat : WardrobeItem :=
  { id := "sample-hat", name := "Sample Hat", url := "hat.png", type := "accessory" }

/-- The color picker opened on the tee layer of `exTee`. -/
def exPicker : AppState := handleOpenColorPicker exTee 1

/-- C1 witness: a fresh append from `exRm` (whose history still holds a redoable tee
layer after the active position) discards that layer: the new history has exactly the
base layer plus the new one. -/
theorem itemSelect_truncates_and_appends_witness :
    (handleItemSelect exRm sampleHat (Except.ok "hat-applied.png")).outfitHistory.length =
      exRm.currentOutfitIndex + 2 :=
  (itemSelect_truncates_and_appends exRm sampleHat "hat-applied.png"
    (by decide) (by decide) (by decide) (by decide)).2.2.1

/-- C2 witness: re-selecting the tee right after a removal is a pure cache hit. -/
theorem itemSelect_cache_hit_no_call_witness :
    handleItemSelect exRm sampleTee (Except.error "net") =
      { exRm with currentOutfitIndex := exRm.currentOutfitIndex + 1,
                  currentPoseIndex := 0 } :=
  itemSelect_cache_hit_no_call exRm sampleTee
    { item := some sampleTee, poseImages := 1 } sampleTee
    (by decide) (by decide) (by decide) (by decide) (by decide) (Except.error "net")

/-- C3 witness: optimistic update and rollback on the concrete tee state. -/
theorem poseSelect_optimistic_rollback_witness :
    (posePending exTee 2).currentPoseIndex = 2 ∧
    (handlePoseSelect exTee 2 (Except.error "net")).currentPoseIndex =
      exTee.currentPoseIndex :=
  ⟨(poseSelect_optimistic_rollback exTee 2 { item := some sampleTee, poseImages := 1 }
      (by decide) (by decide) (by decide) (by decide) (by decide) (by decide)).1,
   ((poseSelect_optimistic_rollback exTee 2 { item := some sampleTee, poseImages := 1 }
      (by decide) (by decide) (by decide) (by decide) (by decide) (by decide)).2
      "net").1⟩

/-- C4 witness: one successful add then one removal from `exBase` (pose position 0)
restores both the active position and the display image. -/
theorem adds_then_removes_restore_witness :
    (removeN (runAdds exBase [(sampleTee, Except.ok "t1.png")]) 1).currentOutfitIndex =
      exBase.currentOutfitIndex ∧
    displayImageUrl (removeN (runAdds exBase [(sampleTee, Except.ok "t1.png")]) 1) =
      displayImageUrl exBase :=
  ⟨(adds_then_removes_restore exBase [(sampleTee, Except.ok "t1.png")]
      (by unfold WF; decide) (by decide)
      ⟨⟨by decide, by decide, Or.inr ⟨"t1.png", rfl⟩⟩, trivial⟩).1,
   (adds_then_removes_restore exBase [(sampleTee, Except.ok "t1.png")]
      (by unfold WF; decide) (by decide)
      ⟨⟨by decide, by decide, Or.inr ⟨"t1.png", rfl⟩⟩, trivial⟩).2 (by decide)⟩

/-- C8 witness: recoloring the tee layer leaves exactly one fresh pose entry. -/
theorem recolor_single_fresh_entry_witness :
    derefMap (handleRecolorGarment exPicker "Red" (Except.ok "tee-red.png")).heap
      { item := some sampleTee, poseImages := exPicker.heap.length } =
      [(poseKeyAt exPicker.currentPoseIndex, "tee-red.png")] :=
  (recolor_single_fresh_entry exPicker "Red" "tee-red.png" 1
    { item := some sampleTee, poseImages := 1 } sampleTee
    (by decide) (by decide) (by decide) (by decide)).2.1

/-- C9 witness: installing the base model from the initial state puts the active
position strictly inside the one-layer history. -/
theorem step_preserves_position_invariant_witness :
    (step initState (Action.modelFinalized "base.png")).currentOutfitIndex <
      (step initState (Action.modelFinalized "base.png")).outfitHistory.length :=
  step_preserves_position_invariant initState (Action.modelFinalized "base.png")
    (by unfold WF; decide) (by decide)


/-- C10: clicking a wardrobe item whose id is already among the active layers' item
ids is ignored by the wardrobe panel: whatever the file conversion or Gateway would
have produced, the session state is returned unchanged (and the gate fires before the
cache-hit/append logic is ever consulted). -/
theorem wardrobe_click_ignored_when_active (st : AppState) (item : WardrobeItem)
    (h : (activeItemIds st).contains item.id = true) :
    ∀ (fileOk : Bool) (gw : Except String String),
      handleItemClick st item fileOk gw = st := by
  intro fileOk gw
  unfold handleItemClick
  rw [if_pos (Or.inr h)]

/-- C10 witness: clicking the already-worn tee in the wardrobe panel is a no-op. -/
theorem wardrobe_click_ignored_when_active_witness :
    handleItemClick exTee sampleTee true (Except.ok "q.png") = exTee :=
  wardrobe_click_ignored_when_active exTee sampleTee (by decide) true
    (Except.ok "q.png")

end TryOn
